import Mathlib

/-
Shallow embedding of the calculator HTTP service (src/app.js).

Scope of the model, and the abstractions taken:
- JavaScript numbers (IEEE-754 doubles) are modelled as exact rationals
  together with the special values +Infinity, -Infinity and NaN.  Rounding,
  overflow of decimal literals to Infinity, and the signed zero are not
  modelled; no verified claim depends on them.
- Request body fields (`req.body.num1` / `num2`) are JSON values.  After
  `express.json` parsing they are either a (finite) JSON number, a string,
  or absent.  express-validator's `isFloat` accepts exactly the strings in
  float format; we abstract "a string accepted by isFloat whose numeric
  value is q" as the constructor `numStr s q`, and any other string as
  `rawStr s` (other JSON values - booleans, objects, null - stringify to
  text that isFloat rejects, so `rawStr` covers them as well).
- `body('operation').isIn([...])` compares the four operation strings
  case-sensitively - but express-validator first coerces the field value
  to a string (a genuine string stays itself; an array is unwrapped
  recursively to its first element, other values go through the standard
  string conversion, and an absent field becomes the empty string).  So a
  non-string value whose coercion is an accepted string passes validation
  even though the handler's strict-equality dispatch (`operation ===
  'add'` etc.) is false for every non-string.  The operation field is
  therefore modelled by `OperationField`: a genuine string, a non-string
  value together with its coerced string form, or an absent field.
- The SQLite store is the append-only `history` table: a list of records
  in insertion order plus the AUTOINCREMENT counter (`nextId`), which
  SQLite keeps strictly above every id ever assigned.  SQLite column
  affinity coercion of bound values is not modelled: records keep the
  values exactly as bound by `stmt.run`.  The store-assigned `timestamp`
  column is opaque to every claim and is omitted from the record.
- Asynchronous storage I/O outcome is modelled by an explicit boolean
  (`insertOk` / `queryOk`): `true` means the statement succeeded, `false`
  that its callback received an error.
-/

namespace CalculatorApp

/-- A JavaScript number: a finite double (abstracted as an exact rational)
or one of the IEEE-754 special values. -/
inductive JsNum where
  | fin (q : ℚ)
  | posInf
  | negInf
  | nan
  deriving DecidableEq

/-- A JSON value sitting in an operand field of the request body:
a finite JSON number, a string accepted by isFloat with numeric value `q`,
a string rejected by isFloat (standing also for stringified non-string,
non-number JSON values), or an absent field. -/
inductive Operand where
  | num (q : ℚ)
  | numStr (s : String) (q : ℚ)
  | rawStr (s : String)
  | missing
  deriving DecidableEq

/-- A JavaScript value produced by the arithmetic expressions of the
handler: a number, or a string (the result of `+` acting as concatenation
when an operand is a string). -/
inductive JsVal where
  | num (n : JsNum)
  | str (s : String)
  deriving DecidableEq

/-- JavaScript ToNumber coercion of an operand: numbers stay themselves,
isFloat-accepted strings parse to their value, any other string parses to
NaN, and an absent field (undefined) coerces to NaN. -/
def Operand.toNum : Operand → JsNum
  | .num q => .fin q
  | .numStr _ q => .fin q
  | .rawStr _ => .nan
  | .missing => .nan

/-- Whether the operand is a JavaScript string (drives `+` concatenation). -/
def Operand.isStr : Operand → Bool
  | .numStr _ _ => true
  | .rawStr _ => true
  | _ => false

/-- JavaScript number-to-string conversion, abstracted: integers print as
their digits; the exact text JavaScript produces for a non-integral double
is irrelevant to every claim, so non-integral rationals get a canonical
fraction rendering. -/
def ratToJsString (q : ℚ) : String :=
  if q.den = 1 then toString q.num else toString q.num ++ "/" ++ toString q.den

/-- JavaScript ToString coercion of an operand (used only when `+` meets a
string operand). -/
def Operand.jsToString : Operand → String
  | .num q => ratToJsString q
  | .numStr s _ => s
  | .rawStr s => s
  | .missing => "undefined"

/-- IEEE-754 addition on the modelled numbers. -/
def JsNum.add : JsNum → JsNum → JsNum
  | .nan, _ => .nan
  | _, .nan => .nan
  | .posInf, .negInf => .nan
  | .negInf, .posInf => .nan
  | .posInf, _ => .posInf
  | _, .posInf => .posInf
  | .negInf, _ => .negInf
  | _, .negInf => .negInf
  | .fin a, .fin b => .fin (a + b)

/-- IEEE-754 negation on the modelled numbers. -/
def JsNum.neg : JsNum → JsNum
  | .fin q => .fin (-q)
  | .posInf => .negInf
  | .negInf => .posInf
  | .nan => .nan

/-- IEEE-754 subtraction: `a - b = a + (-b)`. -/
def JsNum.sub (a b : JsNum) : JsNum := JsNum.add a (JsNum.neg b)

/-- IEEE-754 multiplication on the modelled numbers. -/
def JsNum.mul : JsNum → JsNum → JsNum
  | .nan, _ => .nan
  | _, .nan => .nan
  | .fin a, .fin b => .fin (a * b)
  | .posInf, .posInf => .posInf
  | .posInf, .negInf => .negInf
  | .negInf, .posInf => .negInf
  | .negInf, .negInf => .posInf
  | .posInf, .fin b => if b = 0 then .nan else if 0 < b then .posInf else .negInf
  | .fin a, .posInf => if a = 0 then .nan else if 0 < a then .posInf else .negInf
  | .negInf, .fin b => if b = 0 then .nan else if 0 < b then .negInf else .posInf
  | .fin a, .negInf => if a = 0 then .nan else if 0 < a then .negInf else .posInf

/-- IEEE-754 division on the modelled numbers.  Division of a nonzero
finite number by zero yields a signed infinity (the positive zero, ℚ's
only zero); 0/0 yields NaN. -/
def JsNum.div : JsNum → JsNum → JsNum
  | .nan, _ => .nan
  | _, .nan => .nan
  | .fin a, .fin b =>
      if b = 0 then (if a = 0 then .nan else if 0 < a then .posInf else .negInf)
      else .fin (a / b)
  | .fin _, .posInf => .fin 0
  | .fin _, .negInf => .fin 0
  | .posInf, .fin b => if 0 ≤ b then .posInf else .negInf
  | .negInf, .fin b => if 0 ≤ b then .negInf else .posInf
  | .posInf, .posInf => .nan
  | .posInf, .negInf => .nan
  | .negInf, .posInf => .nan
  | .negInf, .negInf => .nan

/-- The JavaScript `+` operator on two request-body operands: string
concatenation when either side is a string, numeric addition otherwise
(src/app.js line 105, `result = num1 + num2`). -/
def jsAdd (a b : Operand) : JsVal :=
  if a.isStr || b.isStr then .str (a.jsToString ++ b.jsToString)
  else .num (JsNum.add a.toNum b.toNum)

/-- The JavaScript `-` operator on two operands: always numeric
(src/app.js line 106). -/
def jsSub (a b : Operand) : JsVal := .num (JsNum.sub a.toNum b.toNum)

/-- The JavaScript `*` operator on two operands (src/app.js line 107). -/
def jsMul (a b : Operand) : JsVal := .num (JsNum.mul a.toNum b.toNum)

/-- The JavaScript `/` operator on two operands (src/app.js line 110). -/
def jsDiv (a b : Operand) : JsVal := .num (JsNum.div a.toNum b.toNum)

/-- The guard `num2 === 0` of src/app.js line 109: strict equality, true
only when the operand is the JSON number 0 - never for a string. -/
def jsStrictEqZero : Operand → Bool
  | .num q => decide (q = 0)
  | _ => false

/-- express-validator `isFloat()` on a body field: accepts finite JSON
numbers (their stringification is in float format) and strings in float
format; rejects every other string, and a missing field. -/
def isFloatOperand : Operand → Bool
  | .num _ => true
  | .numStr _ _ => true
  | .rawStr _ => false
  | .missing => false

/-- The JSON value in the operation field of the request body.
`str s` is a genuine JSON string.  `coerced s` is a non-string JSON value
whose express-validator string coercion is `s` - for the accepted
operation strings this means an array unwrapping to that string, such as
the one-element array holding the word add (numbers, booleans and null
stringify to text outside the accepted set).  `missing` is an absent
field, which the coercion turns into the empty string. -/
inductive OperationField where
  | str (s : String)
  | coerced (s : String)
  | missing
  deriving DecidableEq

/-- The strict equality `operation === lit` of the dispatch
(src/app.js lines 105-108): true only when the field holds the genuine
string `lit`; strict equality never coerces, so it is false for every
non-string value and for an absent field. -/
def OperationField.strictEq : OperationField → String → Bool
  | .str s, t => s == t
  | .coerced _, _ => false
  | .missing, _ => false

/-- The text form under which the operation value is bound into the TEXT
column by `stmt.run`.  A genuine string binds as itself; the row bound
for a coerced non-string value or an absent field lies outside every
claim's scope and is represented by its coerced string form. -/
def OperationField.bindText : OperationField → String
  | .str s => s
  | .coerced s => s
  | .missing => ""

/-- The request body of POST /calculate as destructured on src/app.js
line 102. -/
structure CalcRequest where
  operation : OperationField
  num1 : Operand
  num2 : Operand
  deriving DecidableEq

/-- The list passed to `isIn` on src/app.js line 95. -/
def allowedOperations : List String := ["add", "subtract", "multiply", "divide"]

/-- express-validator `isIn(['add','subtract','multiply','divide'])`:
case-sensitive exact membership of the field value after the library's
string coercion - so a genuine string and a non-string value coercing to
the same string are treated alike, and an absent field (coerced to the
empty string) never matches. -/
def operationAccepted : OperationField → Bool
  | .str s => allowedOperations.contains s
  | .coerced s => allowedOperations.contains s
  | .missing => false

/-- The validation chain of src/app.js lines 95-97, collected as
`errors.array()`: one field-level violation per failing validator, in
chain order; each violation is identified here by its field path. -/
def validateCalculate (req : CalcRequest) : List String :=
  (if operationAccepted req.operation then [] else ["operation"]) ++
  (if isFloatOperand req.num1 then [] else ["num1"]) ++
  (if isFloatOperand req.num2 then [] else ["num2"])

/-- One row of the `history` table (src/app.js lines 43-50).  Values are
kept exactly as bound by `stmt.run`; `result` is an `Option` because the
JavaScript variable `result` starts out undefined (bound as NULL if it
were still undefined at the INSERT).  The store-assigned timestamp column
is omitted (opaque to every claim). -/
structure HistoryRecord where
  id : Nat
  operation : String
  num1 : Operand
  num2 : Operand
  result : Option JsVal
  deriving DecidableEq

/-- The SQLite `history` table: rows in insertion order plus the
AUTOINCREMENT counter, which stays strictly above every id ever handed
out. -/
structure Store where
  nextId : Nat
  records : List HistoryRecord
  deriving DecidableEq

/-- A freshly created table (AUTOINCREMENT starts handing out 1). -/
def Store.init : Store := { nextId := 1, records := [] }

/-- The INSERT of src/app.js lines 113-114: a new row gets the next
AUTOINCREMENT id and is appended after all existing rows. -/
def Store.append (st : Store) (op : String) (n1 n2 : Operand)
    (r : Option JsVal) : Store :=
  { nextId := st.nextId + 1,
    records := st.records ++
      [{ id := st.nextId, operation := op, num1 := n1, num2 := n2, result := r }] }

/-- The possible responses of the POST /calculate handler:
HTTP 400 with `errors.array()`, HTTP 400 with the divide-by-zero message,
HTTP 200 with `res.json` carrying `result`, or HTTP 500 from the INSERT
callback. -/
inductive CalcResponse where
  | validationErrors (errors : List String)
  | domainError (message : String)
  | ok (result : Option JsVal)
  | storageError
  deriving DecidableEq

/-- The if/else-if dispatch of src/app.js lines 105-111 as the value the
variable `result` holds when control reaches the INSERT: `none` models the
variable still being undefined (no branch matched). -/
def computeResult (req : CalcRequest) : Option JsVal :=
  if req.operation.strictEq "add" then some (jsAdd req.num1 req.num2)
  else if req.operation.strictEq "subtract" then some (jsSub req.num1 req.num2)
  else if req.operation.strictEq "multiply" then some (jsMul req.num1 req.num2)
  else if req.operation.strictEq "divide" then some (jsDiv req.num1 req.num2)
  else none

/-- The POST /calculate handler (src/app.js lines 94-122).  The early
`return` inside the divide branch is restructured as a guard tested before
the dispatch; this is sound because the branches are mutually exclusive on
the operation string, so the early return fires exactly when
`operation === 'divide' && num2 === 0`.  `insertOk` tells whether the
INSERT succeeded (`false`: its callback got an error, the handler answers
500 and the failed statement leaves no row). -/
def calculate (st : Store) (req : CalcRequest) (insertOk : Bool) :
    CalcResponse × Store :=
  if validateCalculate req ≠ [] then
    (.validationErrors (validateCalculate req), st)
  else if req.operation.strictEq "divide" = true ∧
      jsStrictEqZero req.num2 = true then
    (.domainError "Cannot divide by zero", st)
  else if insertOk then
    (.ok (computeResult req),
     st.append req.operation.bindText req.num1 req.num2 (computeResult req))
  else (.storageError, st)

/-- Insertion step of the model of `ORDER BY id DESC`: place a row before
the first existing row whose id it reaches or exceeds. -/
def insertByIdDesc (r : HistoryRecord) : List HistoryRecord → List HistoryRecord
  | [] => [r]
  | s :: l => if s.id ≤ r.id then r :: s :: l else s :: insertByIdDesc r l

/-- The `ORDER BY id DESC` of src/app.js line 126, modelled as an
insertion sort on the id key (ids are distinct, so any correct sort
produces the same sequence). -/
def sortByIdDesc : List HistoryRecord → List HistoryRecord
  | [] => []
  | r :: l => insertByIdDesc r (sortByIdDesc l)

/-- The query of src/app.js line 126: rows sorted newest-first by id,
truncated to `limit` rows (`LIMIT 100` at the call site). -/
def listRecent (st : Store) (limit : Nat) : List HistoryRecord :=
  (sortByIdDesc st.records).take limit

/-- The possible responses of the GET /history handler: HTTP 200 with the
row list, or HTTP 500 from the query callback. -/
inductive HistoryResponse where
  | ok (history : List HistoryRecord)
  | storageError
  deriving DecidableEq

/-- The GET /history handler (src/app.js lines 125-133).  The SELECT does
not mutate the table, so the store is returned unchanged on both paths;
`queryOk` tells whether the query succeeded. -/
def getHistory (st : Store) (queryOk : Bool) : HistoryResponse × Store :=
  if queryOk then (.ok (listRecent st 100), st) else (.storageError, st)

/-- Row ids strictly increase along the insertion order. -/
def idsIncreasing (l : List HistoryRecord) : Prop :=
  List.Pairwise (fun r s => r.id < s.id) l

instance : DecidableRel (fun r s : HistoryRecord => r.id < s.id) :=
  fun r s => inferInstanceAs (Decidable (r.id < s.id))

instance (l : List HistoryRecord) : Decidable (idsIncreasing l) :=
  inferInstanceAs (Decidable (List.Pairwise _ l))

/-- Store invariant maintained by AUTOINCREMENT: ids strictly increase in
insertion order and the counter sits strictly above all of them. -/
def Store.WF (st : Store) : Prop :=
  idsIncreasing st.records ∧ ∀ r ∈ st.records, r.id < st.nextId

instance (st : Store) : Decidable st.WF :=
  inferInstanceAs (Decidable (_ ∧ _))

/-- The stores reachable from a fresh table by POST /calculate calls
(GET /history never changes the store). -/
inductive Reachable : Store → Prop
  | init : Reachable Store.init
  | step (st : Store) (req : CalcRequest) (insertOk : Bool) :
      Reachable st → Reachable (calculate st req insertOk).2

/-- The direct mathematical application of an operation to two numbers, as
the specification words it (the comparison target for the correctness
claim; not part of the code model). -/
def mathApply (op : String) (a b : ℚ) : ℚ :=
  if op = "add" then a + b
  else if op = "subtract" then a - b
  else if op = "multiply" then a * b
  else a / b

/-- Passing validation means all three validators accepted. -/
theorem validateCalculate_eq_nil_iff (req : CalcRequest) :
    validateCalculate req = [] ↔
      operationAccepted req.operation = true ∧
      isFloatOperand req.num1 = true ∧ isFloatOperand req.num2 = true := by
  unfold validateCalculate
  by_cases h1 : operationAccepted req.operation <;>
    by_cases h2 : isFloatOperand req.num1 <;>
      by_cases h3 : isFloatOperand req.num2 <;>
        simp [h1, h2, h3]

/-- Appending via the AUTOINCREMENT scheme preserves the store invariant. -/
theorem Store.append_WF (st : Store) (op : String) (n1 n2 : Operand)
    (r : Option JsVal) (h : st.WF) : (st.append op n1 n2 r).WF := by
  obtain ⟨hinc, hlt⟩ := h
  constructor
  · unfold idsIncreasing at *
    rw [Store.append]
    simp only [List.pairwise_append, List.pairwise_cons, List.Pairwise.nil,
      List.not_mem_nil, false_implies, implies_true, and_true, true_and,
      List.mem_singleton]
    exact ⟨hinc, fun a ha b hb => by rw [hb]; exact hlt a ha⟩
  · intro r2 hr2
    rw [Store.append] at hr2
    simp only [List.mem_append, List.mem_singleton] at hr2
    rcases hr2 with hr2 | hr2
    · exact Nat.lt_trans (hlt r2 hr2) (Nat.lt_succ_self _)
    · rw [hr2]; exact Nat.lt_succ_self _

/-- Every branch of the POST handler preserves the store invariant. -/
theorem calculate_WF (st : Store) (req : CalcRequest) (insertOk : Bool)
    (h : st.WF) : ((calculate st req insertOk).2).WF := by
  unfold calculate
  split
  · exact h
  · split
    · exact h
    · split
      · exact Store.append_WF _ _ _ _ _ h
      · exact h

/-- Every reachable store satisfies the invariant. -/
theorem Reachable.wf (st : Store) (h : Reachable st) : st.WF := by
  induction h with
  | init => exact ⟨List.Pairwise.nil, by simp [Store.init]⟩
  | step st req insertOk _ ih => exact calculate_WF st req insertOk ih

/-- On a passing validation, outside the divide-by-zero guard and with a
succeeding INSERT, the handler answers 200 with the dispatched result and
appends exactly that row. -/
theorem calculate_success (st : Store) (req : CalcRequest)
    (hv : validateCalculate req = [])
    (hnd : ¬(req.operation.strictEq "divide" = true ∧
      jsStrictEqZero req.num2 = true)) :
    calculate st req true =
      (.ok (computeResult req),
       st.append req.operation.bindText req.num1 req.num2
         (computeResult req)) := by
  unfold calculate
  rw [if_neg (by simp [hv]), if_neg hnd, if_pos rfl]

/-- C1: a validated request with a recognized operation and two finite
numeric operands (second nonzero when dividing) gets back exactly the
direct mathematical application of the operation, and exactly one new row
is appended, carrying the request fields and that result. -/
theorem c1_compute_matches_and_appends (st : Store) (req : CalcRequest)
    (op : String) (a b : ℚ)
    (hop : req.operation = .str op) (hmem : op ∈ allowedOperations)
    (h1 : req.num1 = .num a) (h2 : req.num2 = .num b)
    (hdiv : op = "divide" → b ≠ 0) :
    calculate st req true =
      (.ok (some (.num (.fin (mathApply op a b)))),
       { nextId := st.nextId + 1,
         records := st.records ++
           [{ id := st.nextId, operation := op, num1 := .num a,
              num2 := .num b,
              result := some (.num (.fin (mathApply op a b))) }] }) := by
  simp only [allowedOperations, List.mem_cons, List.not_mem_nil,
    or_false] at hmem
  have hv : validateCalculate req = [] := by
    rw [validateCalculate_eq_nil_iff]
    refine ⟨?_, by rw [h1]; rfl, by rw [h2]; rfl⟩
    rw [hop]
    rcases hmem with rfl | rfl | rfl | rfl <;> decide
  rcases hmem with rfl | rfl | rfl | rfl
  · rw [calculate_success st req hv (by simp [hop, OperationField.strictEq])]
    simp [computeResult, OperationField.strictEq, OperationField.bindText,
      hop, h1, h2, jsAdd, Operand.isStr, Operand.toNum, JsNum.add,
      mathApply, Store.append, sub_eq_add_neg]
  · rw [calculate_success st req hv (by simp [hop, OperationField.strictEq])]
    simp [computeResult, OperationField.strictEq, OperationField.bindText,
      hop, h1, h2, jsSub, Operand.toNum, JsNum.sub, JsNum.add, JsNum.neg,
      mathApply, Store.append, sub_eq_add_neg]
  · rw [calculate_success st req hv (by simp [hop, OperationField.strictEq])]
    simp [computeResult, OperationField.strictEq, OperationField.bindText,
      hop, h1, h2, jsMul, Operand.toNum, JsNum.mul, mathApply, Store.append]
  · have hb : b ≠ 0 := hdiv rfl
    rw [calculate_success st req hv
      (by rw [hop, h2]; simp [OperationField.strictEq, jsStrictEqZero, hb])]
    simp [computeResult, OperationField.strictEq, OperationField.bindText,
      hop, h1, h2, jsDiv, Operand.toNum, JsNum.div, hb, mathApply,
      Store.append]

/-- C1 witness: add 2 and 3 on a fresh store yields 5 and appends the
matching row with id 1. -/
theorem c1_witness :
    calculate Store.init
      { operation := .str "add", num1 := .num 2, num2 := .num 3 } true =
      (.ok (some (.num (.fin (mathApply "add" 2 3)))),
       { nextId := Store.init.nextId + 1,
         records := Store.init.records ++
           [{ id := Store.init.nextId, operation := "add", num1 := .num 2,
              num2 := .num 3,
              result := some (.num (.fin (mathApply "add" 2 3))) }] }) :=
  c1_compute_matches_and_appends Store.init
    { operation := .str "add", num1 := .num 2, num2 := .num 3 }
    "add" 2 3 rfl (by decide) rfl rfl (by decide)

/-- C2: a validated divide request whose second operand is the number 0
gets the divide-by-zero domain error back and leaves the store's record
set unchanged. -/
theorem c2_divide_by_zero_rejected (st : Store) (req : CalcRequest)
    (insertOk : Bool) (hop : req.operation = .str "divide")
    (h2 : req.num2 = .num 0) (h1 : isFloatOperand req.num1 = true) :
    calculate st req insertOk = (.domainError "Cannot divide by zero", st) := by
  have hv : validateCalculate req = [] := by
    rw [validateCalculate_eq_nil_iff]
    exact ⟨by rw [hop]; decide, h1, by rw [h2]; rfl⟩
  unfold calculate
  rw [if_neg (by simp [hv]),
    if_pos ⟨by rw [hop]; decide, by rw [h2]; rfl⟩]

/-- C2 witness: divide 10 by the number 0 on a fresh store. -/
theorem c2_witness :
    calculate Store.init
      { operation := .str "divide", num1 := .num 10, num2 := .num 0 } true =
      (.domainError "Cannot divide by zero", Store.init) :=
  c2_divide_by_zero_rejected Store.init
    { operation := .str "divide", num1 := .num 10, num2 := .num 0 }
    true rfl rfl rfl

/-- C3: a request with an unrecognized operation, a missing operand or a
non-numeric operand gets the nonempty field-level violation list back, and
the store is untouched (neither calculator nor INSERT runs). -/
theorem c3_validation_rejects (st : Store) (req : CalcRequest)
    (insertOk : Bool)
    (h : operationAccepted req.operation = false ∨
         isFloatOperand req.num1 = false ∨ isFloatOperand req.num2 = false) :
    validateCalculate req ≠ [] ∧
    calculate st req insertOk =
      (.validationErrors (validateCalculate req), st) := by
  have hne : validateCalculate req ≠ [] := by
    intro hv
    rw [validateCalculate_eq_nil_iff] at hv
    rcases h with h | h | h <;> rw [h] at hv <;> simp at hv
  exact ⟨hne, by unfold calculate; rw [if_pos hne]⟩

/-- C3 witness: the operation string modulo is rejected with a violation
on the operation field and the store stays empty. -/
theorem c3_witness :
    validateCalculate
      { operation := .str "modulo", num1 := .num 2, num2 := .num 3 } ≠ [] ∧
    calculate Store.init
      { operation := .str "modulo", num1 := .num 2, num2 := .num 3 } true =
      (.validationErrors ["operation"], Store.init) := by
  have h := c3_validation_rejects Store.init
    { operation := .str "modulo", num1 := .num 2, num2 := .num 3 } true
    (Or.inl (by decide))
  exact ⟨h.1, h.2.trans (by decide)⟩

/-- C5: when the calculation succeeded (validation passed and the request
is not a divide-by-the-number-0) but the INSERT fails, the handler answers
with the storage error - a response carrying no result - and the failed
statement leaves the record set unchanged. -/
theorem c5_storage_failure (st : Store) (req : CalcRequest)
    (hv : validateCalculate req = [])
    (hnd : ¬(req.operation.strictEq "divide" = true ∧
      jsStrictEqZero req.num2 = true)) :
    calculate st req false = (.storageError, st) := by
  unfold calculate
  rw [if_neg (by simp [hv]), if_neg hnd]
  rfl

/-- C5 witness: add 2 and 3 with a failing INSERT on a fresh store. -/
theorem c5_witness :
    calculate Store.init
      { operation := .str "add", num1 := .num 2, num2 := .num 3 } false =
      (.storageError, Store.init) :=
  c5_storage_failure Store.init
    { operation := .str "add", num1 := .num 2, num2 := .num 3 }
    (by decide) (by decide)

/-- C7: GET /history is read-only - it returns the store unchanged - and
idempotent: a second call on the resulting store yields the identical
response. -/
theorem c7_getHistory_idempotent_readonly (st : Store) (queryOk : Bool) :
    (getHistory st queryOk).2 = st ∧
    (getHistory ((getHistory st queryOk).2) queryOk).1 =
      (getHistory st queryOk).1 := by
  have h2 : (getHistory st queryOk).2 = st := by
    unfold getHistory
    split <;> rfl
  exact ⟨h2, by rw [h2]⟩

/-- C8: on a store with no records, GET /history answers the normal
success shape with the empty sequence, not an error. -/
theorem c8_empty_history_ok (st : Store) (h : st.records = []) :
    getHistory st true = (.ok [], st) := by
  unfold getHistory listRecent
  rw [h]
  rfl

/-- C8 witness: the fresh store has no records and lists as empty. -/
theorem c8_witness : getHistory Store.init true = (.ok [], Store.init) :=
  c8_empty_history_ok Store.init rfl

/-- The request whose operation field is the JSON array form of the word
add (a one-element array): express-validator's string coercion unwraps it
to the accepted string, so isIn passes, but the handler's strict-equality
dispatch is false for the non-string value in every branch. -/
def arrayOperationAdd : CalcRequest :=
  { operation := .coerced "add", num1 := .num 2, num2 := .num 3 }

/-- C9: the failing input for the claim that a validated request always
has the result variable assigned by one of the four dispatch branches
before the INSERT executes (or gets the divide-by-zero return first).
The array-form add request passes validation, no dispatch branch matches
it under strict equality and the divide-by-zero return does not fire, so
the handler reaches the INSERT with the result variable still undefined:
the row it binds carries no result value for the NOT NULL result column,
and the 200 response carries no result either. -/
theorem c9_array_operation_reaches_insert_undefined :
    validateCalculate arrayOperationAdd = [] ∧
    computeResult arrayOperationAdd = none ∧
    (calculate Store.init arrayOperationAdd true).1 = .ok none ∧
    (calculate Store.init arrayOperationAdd true).2.records.map
      (fun r => r.result) = [none] :=
  ⟨by decide, by decide, by decide, by decide⟩

/-- A row whose id is below every id of a descending-sorted list is
inserted at its end. -/
theorem insertByIdDesc_append (r : HistoryRecord) (m : List HistoryRecord)
    (h : ∀ s ∈ m, r.id < s.id) : insertByIdDesc r m = m ++ [r] := by
  induction m with
  | nil => rfl
  | cons s l ih =>
      have hs : r.id < s.id := h s (List.mem_cons_self s l)
      rw [insertByIdDesc, if_neg (Nat.not_le.mpr hs),
        ih (fun t ht => h t (List.mem_cons_of_mem s ht))]
      rfl

/-- Sorting an insertion-order list with strictly increasing ids by id
descending reverses it. -/
theorem sortByIdDesc_of_increasing (l : List HistoryRecord)
    (h : idsIncreasing l) : sortByIdDesc l = l.reverse := by
  induction l with
  | nil => rfl
  | cons r l ih =>
      obtain ⟨hr, hl⟩ := List.pairwise_cons.mp h
      rw [sortByIdDesc, ih hl,
        insertByIdDesc_append r l.reverse
          (fun s hs => hr s (List.mem_reverse.mp hs)),
        List.reverse_cons]

/-- In a strictly descending list, a row lies in the first n entries
exactly when fewer than n rows have a larger id. -/
theorem mem_take_iff_few_larger (L : List HistoryRecord) (n : Nat)
    (r : HistoryRecord)
    (h : List.Pairwise (fun a b => b.id < a.id) L) :
    r ∈ L.take n ↔
      r ∈ L ∧ (L.filter (fun s => r.id < s.id)).length < n := by
  revert h
  induction L generalizing n with
  | nil => simp
  | cons x L ih =>
      intro h
      obtain ⟨hx, hL⟩ := List.pairwise_cons.mp h
      match n with
      | 0 => simp
      | Nat.succ m =>
          rw [List.take_succ_cons]
          by_cases hrx : r = x
          · subst hrx
            have hfilter : L.filter (fun s => r.id < s.id) = [] :=
              List.filter_eq_nil_iff.mpr (fun s hs => by
                simp only [decide_eq_true_eq]
                exact Nat.not_lt.mpr (Nat.le_of_lt (hx s hs)))
            simp [List.filter_cons, hfilter]
          · by_cases hrL : r ∈ L
            · have hrxid : r.id < x.id := hx r hrL
              rw [List.filter_cons_of_pos (by simpa using hrxid)]
              simp only [List.mem_cons, hrx, false_or, List.length_cons,
                Nat.succ_eq_add_one, Nat.add_lt_add_iff_right]
              exact ih m hL
            · have hL1 : r ∉ L.take m :=
                fun hmem => hrL (List.take_subset m L hmem)
              simp [hrx, hrL, hL1]

/-- C4: on a store satisfying the AUTOINCREMENT invariant, the history
listing holds at most 100 rows, is strictly newest-first by id, equals the
100 most recently appended rows newest-first, and contains a stored row
exactly when fewer than 100 stored rows have a larger id. -/
theorem c4_history_recent_bounded (st : Store) (h : st.WF) :
    (listRecent st 100).length ≤ 100 ∧
    List.Pairwise (fun r s => s.id < r.id) (listRecent st 100) ∧
    listRecent st 100 = st.records.reverse.take 100 ∧
    ∀ r, r ∈ listRecent st 100 ↔
      r ∈ st.records ∧
        (st.records.filter (fun s => r.id < s.id)).length < 100 := by
  obtain ⟨hinc, _⟩ := h
  have heq : listRecent st 100 = st.records.reverse.take 100 := by
    rw [listRecent, sortByIdDesc_of_increasing st.records hinc]
  have hrev : List.Pairwise (fun r s => s.id < r.id) st.records.reverse := by
    rw [List.pairwise_reverse]
    exact hinc
  refine ⟨?_, ?_, heq, ?_⟩
  · rw [heq, List.length_take]
    exact min_le_left _ _
  · rw [heq]
    exact hrev.sublist (List.take_sublist _ _)
  · intro r
    rw [heq, mem_take_iff_few_larger _ _ _ hrev, List.mem_reverse,
      List.filter_reverse, List.length_reverse]

/-- A concrete store with three rows in append order, ids 1 to 3. -/
def sampleStore : Store :=
  { nextId := 4,
    records :=
      [{ id := 1, operation := "add", num1 := .num 2, num2 := .num 3,
         result := some (.num (.fin 5)) },
       { id := 2, operation := "subtract", num1 := .num 5, num2 := .num 3,
         result := some (.num (.fin 2)) },
       { id := 3, operation := "multiply", num1 := .num 2, num2 := .num 4,
         result := some (.num (.fin 8)) }] }

/-- C4 witness: the three-row store satisfies the invariant and lists its
rows newest-first within the bound. -/
theorem c4_witness :
    (listRecent sampleStore 100).length ≤ 100 ∧
    listRecent sampleStore 100 = sampleStore.records.reverse.take 100 :=
  ⟨(c4_history_recent_bounded sampleStore (by decide)).1,
   (c4_history_recent_bounded sampleStore (by decide)).2.2.1⟩

/-- C6: on every reachable store, row ids strictly increase in append
order - a later append always gets a larger id - and no two rows share an
id. -/
theorem c6_ids_strictly_monotone (st : Store) (h : Reachable st) :
    idsIncreasing st.records ∧
    (st.records.map (fun r => r.id)).Nodup := by
  have hwf := Reachable.wf st h
  refine ⟨hwf.1, ?_⟩
  rw [List.Nodup, List.pairwise_map]
  exact hwf.1.imp (fun hab => Nat.ne_of_lt hab)

/-- C6 witness: the store reached by one successful addition from the
fresh store has strictly increasing, duplicate-free ids. -/
theorem c6_witness :
    idsIncreasing (calculate Store.init
      { operation := .str "add", num1 := .num 2, num2 := .num 3 }
      true).2.records ∧
    ((calculate Store.init
      { operation := .str "add", num1 := .num 2, num2 := .num 3 }
      true).2.records.map (fun r => r.id)).Nodup :=
  c6_ids_strictly_monotone _
    (Reachable.step Store.init
      { operation := .str "add", num1 := .num 2, num2 := .num 3 }
      true Reachable.init)

/-- The request of the strict-equality loophole: operation divide with the
second operand supplied as the numeric string form of zero.  isFloat
accepts the string, so validation passes; the strict `num2 === 0` guard
compares a string to a number and stays false. -/
def stringZeroDivide : CalcRequest :=
  { operation := .str "divide", num1 := .num 10, num2 := .numStr "0" 0 }

/-- C10: the divide-by-zero guard uses strict equality - the request
dividing 10 by the string form of zero passes validation, is not answered
with a domain error, performs the JavaScript division (10 divided by the
coerced 0 gives positive infinity) and appends a row. -/
theorem c10_strict_guard_misses_string_zero (st : Store) :
    validateCalculate stringZeroDivide = [] ∧
    (∀ msg, (calculate st stringZeroDivide true).1 ≠ .domainError msg) ∧
    calculate st stringZeroDivide true =
      (.ok (some (.num .posInf)),
       st.append "divide" (.num 10) (.numStr "0" 0)
         (some (.num .posInf))) := by
  have hc : calculate st stringZeroDivide true =
      (.ok (some (.num .posInf)),
       st.append "divide" (.num 10) (.numStr "0" 0)
         (some (.num .posInf))) := by
    rw [calculate_success st stringZeroDivide (by decide) (by decide)]
    rfl
  refine ⟨by decide, ?_, hc⟩
  intro msg
  rw [hc]
  simp

end CalculatorApp
